import Mathlib

/-!
Verification development for the markdown-to-docx converter in `main.py`.

The converter is a single-pass, line-oriented scanner over the input text,
combined with a regex-based inline splitter.  We embed it shallowly:

* strings are `List Char`; Python `str.strip()` is `pyStrip`;
* the regex alternation used by `add_runs_with_inline_markdown` (line 102)
  is modelled by `matchInlineAt`, which tries the seven alternatives in the
  same order at each scan position, with the same greedy/lazy behaviour
  (greedy `[^*]+` runs for the star patterns, shortest closing occurrence
  for the lazy math patterns);
* `re.split` keeping the capture group is `reSplit`;
* the LaTeX-to-OMML conversion chain (external `latex2mathml` + XSLT) is an
  oracle `Bridge : List Char → Option Unit`; `latex_to_omml` wraps it with
  the code's empty-input guard (line 63) and returns the converted source.
  All exceptions of the chain are caught in the source (lines 76-81), so a
  conversion fault is exactly `none` here;
* document mutations (`doc.add_paragraph`, `doc.add_table`, ...) become a
  list of `Block` events.
-/

namespace MD

/-- Python `\s` / `str.strip()` whitespace (ASCII part). -/
def pyIsSpace (c : Char) : Bool :=
  c == ' ' || c == '\t' || c == '\n' || c == '\r' || c == '\x0b' || c == '\x0c'

/-- Python `str.strip()`. -/
def pyStrip (s : List Char) : List Char :=
  ((s.dropWhile pyIsSpace).reverse.dropWhile pyIsSpace).reverse

/-- `pat.isPrefixOf s`, written recursively so it unfolds by `rfl` on
concrete heads (models Python `str.startswith`). -/
def startsWithL : List Char → List Char → Bool
  | [], _ => true
  | _ :: _, [] => false
  | p :: ps, c :: cs => p == c && startsWithL ps cs

/-- Python `str.endswith`. -/
def endsWithL (pat s : List Char) : Bool :=
  startsWithL pat.reverse s.reverse

/-- Python `str.split(sep)` for a single-character separator. -/
def splitOnChar (sep : Char) : List Char → List (List Char)
  | [] => [[]]
  | c :: cs =>
    if c == sep then [] :: splitOnChar sep cs
    else
      match splitOnChar sep cs with
      | [] => [[c]]
      | h :: t => (c :: h) :: t

/-- Python `"\n".join`. -/
def joinNL : List (List Char) → List Char
  | [] => []
  | [l] => l
  | l :: ls => l ++ '\n' :: joinNL ls

/-- Lazy (shortest-match) search for `closer`: returns the text before the
first occurrence of `closer` and the text after it.  This is the semantics
of `[\s\S]*?` followed by the closing delimiter in the source regexes. -/
def findClose (closer : List Char) : List Char → Option (List Char × List Char)
  | [] => none
  | c :: cs =>
    if startsWithL closer (c :: cs) then some ([], List.drop closer.length (c :: cs))
    else
      match findClose closer cs with
      | some (pre, post) => some (c :: pre, post)
      | none => none

/-- Shared tail of the three star alternatives `\*{n}[^*]+\*{n}` after the
opener has been consumed: the greedy `[^*]+` takes the maximal non-star run
(backtracking cannot shorten it, because the closing stars can never match
a non-star character), which must be non-empty and be followed by `n` more
stars. -/
def emphTail (n : Nat) (t : List Char) : Option (List Char × List Char) :=
  let R := t.takeWhile (fun c => !(c == '*'))
  let u := t.dropWhile (fun c => !(c == '*'))
  if R = [] then none
  else if startsWithL (List.replicate n '*') u then
    some (List.replicate n '*' ++ R ++ List.replicate n '*', u.drop n)
  else none

/-- Alternative 1 of the inline regex: `\*\*\*[^*]+\*\*\*`. -/
def altEmph3 : List Char → Option (List Char × List Char)
  | '*' :: '*' :: '*' :: t => emphTail 3 t
  | _ => none

/-- Alternative 2: `\*\*[^*]+\*\*`. -/
def altEmph2 : List Char → Option (List Char × List Char)
  | '*' :: '*' :: t => emphTail 2 t
  | _ => none

/-- Alternative 3: `\*[^*]+\*`. -/
def altEmph1 : List Char → Option (List Char × List Char)
  | '*' :: t => emphTail 1 t
  | _ => none

/-- Alternative 4: `\${2}[\s\S]*?\${2}`. -/
def altMathDD : List Char → Option (List Char × List Char)
  | '$' :: '$' :: t =>
    match findClose ['$', '$'] t with
    | some (interior, rest) => some ('$' :: '$' :: (interior ++ ['$', '$']), rest)
    | none => none
  | _ => none

/-- Alternative 5: `\\\[[\s\S]*?\\\]`. -/
def altMathBrack : List Char → Option (List Char × List Char)
  | '\\' :: '[' :: t =>
    match findClose ['\\', ']'] t with
    | some (interior, rest) => some ('\\' :: '[' :: (interior ++ ['\\', ']']), rest)
    | none => none
  | _ => none

/-- Alternative 6: `\\\([\s\S]*?\\\)`. -/
def altMathParen : List Char → Option (List Char × List Char)
  | '\\' :: '(' :: t =>
    match findClose ['\\', ')'] t with
    | some (interior, rest) => some ('\\' :: '(' :: (interior ++ ['\\', ')']), rest)
    | none => none
  | _ => none

/-- Alternative 7: `\$[\s\S]*?\$`. -/
def altMathD : List Char → Option (List Char × List Char)
  | '$' :: t =>
    match findClose ['$'] t with
    | some (interior, rest) => some ('$' :: (interior ++ ['$']), rest)
    | none => none
  | _ => none

/-- One attempt of the full `inline_pattern` alternation, at the current
position, alternatives tried in the source order (line 102). -/
def matchInlineAt (s : List Char) : Option (List Char × List Char) :=
  match altEmph3 s with
  | some r => some r
  | none =>
    match altEmph2 s with
    | some r => some r
    | none =>
      match altEmph1 s with
      | some r => some r
      | none =>
        match altMathDD s with
        | some r => some r
        | none =>
          match altMathBrack s with
          | some r => some r
          | none =>
            match altMathParen s with
            | some r => some r
            | none => altMathD s

/-- `re.split(inline_pattern, text)` with the single capture group kept:
non-matching chunks (possibly empty) alternate with matched chunks.  The
fuel is the length of the remaining text; every step consumes at least one
character, so the fuel never runs out when started at `s.length`. -/
def reSplitGo : Nat → List Char → List Char → List (List Char)
  | _, pending, [] => [pending.reverse]
  | 0, pending, c :: cs => [pending.reverse ++ c :: cs]
  | fuel + 1, pending, c :: cs =>
    match matchInlineAt (c :: cs) with
    | some (m, rest) => pending.reverse :: m :: reSplitGo fuel [] rest
    | none => reSplitGo fuel (c :: pending) cs

def reSplit (s : List Char) : List (List Char) :=
  reSplitGo s.length [] s

/-- Shared tail of the anchored classifiers `^\*{n}([^*]+)\*{n}$`
(lines 130-132): the greedy non-star run must be followed by exactly the
`n` closing stars and the end of the segment. -/
def emphFullTail (n : Nat) (t : List Char) : Option (List Char) :=
  let R := t.takeWhile (fun c => !(c == '*'))
  let u := t.dropWhile (fun c => !(c == '*'))
  if R = [] then none
  else if u = List.replicate n '*' then some R else none

/-- `re.match(triple_star_pattern, seg)` (anchored both ends). -/
def m3Full : List Char → Option (List Char)
  | '*' :: '*' :: '*' :: t => emphFullTail 3 t
  | _ => none

/-- `re.match(double_star_pattern, seg)`. -/
def m2Full : List Char → Option (List Char)
  | '*' :: '*' :: t => emphFullTail 2 t
  | _ => none

/-- `re.match(single_star_pattern, seg)`. -/
def m1Full : List Char → Option (List Char)
  | '*' :: t => emphFullTail 1 t
  | _ => none

/-- `re.match(formula_pattern, seg)` succeeds (line 118).  A prefix of the
segment matches one of `\${1,2}[\s\S]*?\${1,2}`, `\\\[[\s\S]*?\\\]`,
`\\\([\s\S]*?\\\)`: for a segment starting with `$` this holds exactly when
another `$` occurs later (the `{1,2}` opener backtracks from two dollars to
one if needed); for the backslash shapes, when the closing pair occurs. -/
def isFormulaSeg : List Char → Bool
  | '$' :: t => t.contains '$'
  | '\\' :: '[' :: t => (findClose ['\\', ']'] t).isSome
  | '\\' :: '(' :: t => (findClose ['\\', ')'] t).isSome
  | _ => false

/-- The external LaTeX-to-renderable conversion chain (latex2mathml + the
XSL transform), as an oracle: `none` models any caught conversion fault. -/
abbrev Bridge : Type := List Char → Option Unit

/-- A bridge on which every conversion fails. -/
def bridge0 : Bridge := fun _ => none

/-- A bridge on which every conversion succeeds. -/
def bridgeOK : Bridge := fun _ => some ()

/-- `strip_delimiters` (line 83):
`re.sub(r'^(?:\${1,2}|\\\(|\\\[)\s*|\s*(?:\${1,2}|\\\)|\\\])$', '', s.strip()).strip()`.
The substitution removes at most one anchored opener (with the whitespace
after it) and at most one anchored closer (with the whitespace before it);
`\${1,2}` is greedy, so `$$` is preferred over `$` on both sides. -/
def stripOpenDelim : List Char → List Char
  | '$' :: '$' :: t => t.dropWhile pyIsSpace
  | '$' :: t => t.dropWhile pyIsSpace
  | '\\' :: '(' :: t => t.dropWhile pyIsSpace
  | '\\' :: '[' :: t => t.dropWhile pyIsSpace
  | s => s

def stripCloseDelim (s : List Char) : List Char :=
  match s.reverse with
  | '$' :: '$' :: t => (t.dropWhile pyIsSpace).reverse
  | '$' :: t => (t.dropWhile pyIsSpace).reverse
  | ')' :: '\\' :: t => (t.dropWhile pyIsSpace).reverse
  | ']' :: '\\' :: t => (t.dropWhile pyIsSpace).reverse
  | _ => s

def strip_delimiters (s : List Char) : List Char :=
  pyStrip (stripCloseDelim (stripOpenDelim (pyStrip s)))

/-- `latex_to_omml` (line 57): empty or whitespace-only input returns
`None`; otherwise the conversion chain runs with every exception caught.
On success we record the converted LaTeX source (the stripped input). -/
def latex_to_omml (bridge : Bridge) (latex_input : List Char) : Option (List Char) :=
  let s := pyStrip latex_input
  if s = [] then none
  else
    match bridge s with
    | some _ => some s
    | none => none

inductive EmphStyle where
  | italic
  | bold
  | boldItalic
  deriving DecidableEq, Repr

/-- One run appended to a paragraph by `add_runs_with_inline_markdown`:
a plain run, a styled run, or a successfully converted OMML math node. -/
inductive Run where
  | plain (text : List Char)
  | emph (content : List Char) (style : EmphStyle)
  | mathNode (latex : List Char)
  deriving DecidableEq, Repr

/-- Processing of one split segment (the body of the `for seg` loop,
lines 114-153). -/
def processSeg (bridge : Bridge) (seg : List Char) : Run :=
  match matchInlineAt seg with
  | none => Run.plain seg
  | some _ =>
    if isFormulaSeg seg then
      match latex_to_omml bridge (strip_delimiters seg) with
      | some x => Run.mathNode x
      | none => Run.plain seg
    else
      match m3Full seg with
      | some content => Run.emph content EmphStyle.boldItalic
      | none =>
        match m2Full seg with
        | some content => Run.emph content EmphStyle.bold
        | none =>
          match m1Full seg with
          | some content => Run.emph content EmphStyle.italic
          | none => Run.plain seg

/-- `add_runs_with_inline_markdown` (line 94): split the text with the
inline alternation and process every segment in order. -/
def add_runs_with_inline_markdown (bridge : Bridge) (text : List Char) : List Run :=
  (reSplit text).map (processSeg bridge)

/-- A segment of a text line, as produced by the image scan of
`parse_line_for_images_and_text` (line 204). -/
inductive LineSeg where
  | text (s : List Char)
  | image (alt url : List Char)
  deriving DecidableEq, Repr

/-- One attempt of `img_pattern = !\[([^\]]*)\]\(([^)]+)\)` at the current
position: `[^\]]*` greedily takes the maximal non-`]` run (backtracking
cannot help, since `\]` never matches a non-`]` character), similarly for
`[^)]+`, which must be non-empty. -/
def matchImageAt : List Char → Option (List Char × List Char × List Char)
  | '!' :: '[' :: t =>
    match t.dropWhile (fun c => !(c == ']')) with
    | ']' :: '(' :: v =>
      let url := v.takeWhile (fun c => !(c == ')'))
      if url = [] then none
      else
        match v.dropWhile (fun c => !(c == ')')) with
        | ')' :: rest => some (t.takeWhile (fun c => !(c == ']')), url, rest)
        | _ => none
    | _ => none
  | _ => none

/-- The `re.finditer(img_pattern, line)` scan of lines 214-226: image
matches in order, with the non-empty text chunks between them.  Fuel as in
`reSplitGo`. -/
def splitImagesGo : Nat → List Char → List Char → List LineSeg
  | _, pending, [] => if pending = [] then [] else [LineSeg.text pending.reverse]
  | 0, pending, c :: cs =>
    if pending = [] then [LineSeg.text (c :: cs)]
    else [LineSeg.text (pending.reverse ++ c :: cs)]
  | fuel + 1, pending, c :: cs =>
    match matchImageAt (c :: cs) with
    | some (alt, url, rest) =>
      if pending = [] then LineSeg.image alt url :: splitImagesGo fuel [] rest
      else LineSeg.text pending.reverse :: LineSeg.image alt url :: splitImagesGo fuel [] rest
    | none => splitImagesGo fuel (c :: pending) cs

def splitImages (line : List Char) : List LineSeg :=
  splitImagesGo line.length [] line

/-- One block-level document mutation performed by the scan loop of
`convert_markdown_to_docx`. -/
inductive Block where
  | codeBoundary (entering : Bool)
  | codeLine (text : List Char)
  | mathPara (r : Run)
  | blank
  | table (grid : Option (List (List (List Run))))
  | hrule
  | heading (level : Nat) (text : List Char)
  | para (runs : List Run)
  | imagePara (alt url : List Char)
  deriving DecidableEq, Repr

def Run.isEmph : Run → Bool
  | Run.emph _ _ => true
  | _ => false

def Block.isMathPara : Block → Bool
  | Block.mathPara _ => true
  | _ => false

def Block.isPara : Block → Bool
  | Block.para _ => true
  | _ => false

/-- `parse_line_for_images_and_text` (line 204): each text segment becomes
its own paragraph (or a blank paragraph if whitespace-only), each image its
own centered image paragraph. -/
def parse_line_for_images_and_text (bridge : Bridge) (line : List Char) : List Block :=
  (splitImages line).map fun seg =>
    match seg with
    | LineSeg.text t =>
      if pyStrip t = [] then Block.blank
      else Block.para (add_runs_with_inline_markdown bridge t)
    | LineSeg.image a u => Block.imagePara a u

/-- `row.strip().strip('|')` then `split('|')` then per-cell `strip()`
(lines 285-288). -/
def parseRow (row : List Char) : List (List Char) :=
  let r := pyStrip row
  let r := ((r.dropWhile (fun c => c == '|')).reverse.dropWhile (fun c => c == '|')).reverse
  (splitOnChar '|' r).map pyStrip

/-- The inner loop `for j in range(ncols): rows_data[i][j]` of
`flush_table`: take the first `n` cells of a row; `none` models the
uncaught `IndexError` raised when the row is shorter than `n`. -/
def takeCells : Nat → List (List Char) → Option (List (List Char))
  | 0, _ => some []
  | _ + 1, [] => none
  | n + 1, c :: cs => (takeCells n cs).map (fun t => c :: t)

def assembleRow (bridge : Bridge) (ncols : Nat) (r : List (List Char)) :
    Option (List (List Run)) :=
  (takeCells ncols r).map (List.map (add_runs_with_inline_markdown bridge))

def assembleRows (bridge : Bridge) (ncols : Nat) :
    List (List (List Char)) → Option (List (List (List Run)))
  | [] => some []
  | r :: rs =>
    match assembleRow bridge ncols r, assembleRows bridge ncols rs with
    | some row, some rest => some (row :: rest)
    | _, _ => none

/-- `flush_table` (line 274): empty buffer emits nothing; the column count
is the first row's cell count; `Block.table none` marks the uncaught
`IndexError` on a row with fewer cells than the first.  (`parseRow` always
yields at least one cell, so the `ncols == 0` early return of line 292 is
unreachable; it is kept for fidelity.) -/
def flush_table (bridge : Bridge) (buffer : List (List Char)) : List Block :=
  match buffer.map parseRow with
  | [] => []
  | r0 :: rest =>
    if r0.length = 0 then []
    else
      match assembleRows bridge r0.length (r0 :: rest) with
      | some g => [Block.table (some g)]
      | none => [Block.table none]

/-- The mutable scan state of `convert_markdown_to_docx` (lines 266-272). -/
structure ScanState where
  in_code_block : Bool
  in_math_block : Bool
  math_block_buffer : List (List Char)
  table_buffer : List (List Char)
  table_mode : Bool
  deriving DecidableEq, Repr

def initState : ScanState :=
  { in_code_block := false, in_math_block := false, math_block_buffer := []
    table_buffer := [], table_mode := false }

/-- `line_stripped.startswith('```')` (line 313). -/
def fenceLine (ls : List Char) : Bool :=
  startsWithL ("```".data) ls

/-- `line_stripped.endswith('$$') or line_stripped.endswith('\\]')`
(line 329). -/
def mathCloseLine (ls : List Char) : Bool :=
  endsWithL ("$$".data) ls || endsWithL ("\\]".data) ls

/-- The multi-line block opener condition of lines 348-351. -/
def mathOpenLine (ls : List Char) : Bool :=
  (startsWithL ("$$".data) ls || startsWithL ("\\[".data) ls) && !(mathCloseLine ls)

/-- `re.match(r'^(?:\${2}.*?\${2}|\\\[.*?\\\])$', line_stripped)`
(line 358): the line is `$$...$$` or `\[...\]` with both delimiters on this
line (length at least 4) and no newline in the interior (`.` does not cross
line breaks; lines produced by `split('\n')` never contain one). -/
def singleLineMath (ls : List Char) : Bool :=
  (startsWithL ("$$".data) ls && endsWithL ("$$".data) ls
    && decide (4 ≤ ls.length) && !(((ls.drop 2).take (ls.length - 4)).contains '\n'))
  || (startsWithL ("\\[".data) ls && endsWithL ("\\]".data) ls
    && decide (4 ≤ ls.length) && !(((ls.drop 2).take (ls.length - 4)).contains '\n'))

/-- `line_stripped.startswith('|') and line_stripped.endswith('|')`
(line 380). -/
def tableRowLine (ls : List Char) : Bool :=
  startsWithL ("|".data) ls && endsWithL ("|".data) ls

/-- `all(ch in '-|: ' for ch in line_stripped)` (line 382). -/
def separatorLine (ls : List Char) : Bool :=
  ls.all (fun c => c == '-' || c == '|' || c == ':' || c == ' ')

/-- One iteration of the `for line in lines` loop (lines 308-419), in the
source's check order.  Returns the new state and the document mutations. -/
def step (bridge : Bridge) (st : ScanState) (line : List Char) : ScanState × List Block :=
  let ls := pyStrip line
  if fenceLine ls then
    ({ st with in_code_block := !st.in_code_block },
      [Block.codeBoundary (!st.in_code_block)])
  else if st.in_code_block then
    (st, [Block.codeLine line])
  else if st.in_math_block then
    if mathCloseLine ls then
      let content := joinNL (st.math_block_buffer ++ [line])
      let r :=
        match latex_to_omml bridge (strip_delimiters content) with
        | some x => Run.mathNode x
        | none => Run.plain content
      ({ st with in_math_block := false, math_block_buffer := [] }, [Block.mathPara r])
    else
      ({ st with math_block_buffer := st.math_block_buffer ++ [line] }, [])
  else if mathOpenLine ls then
    ({ st with in_math_block := true, math_block_buffer := [line] }, [])
  else if singleLineMath ls then
    let r :=
      match latex_to_omml bridge (strip_delimiters ls) with
      | some x => Run.mathNode x
      | none => Run.plain ls
    (st, [Block.mathPara r])
  else if ls = [] then
    if st.table_mode then
      ({ st with table_mode := false, table_buffer := [] },
        flush_table bridge st.table_buffer ++ [Block.blank])
    else (st, [Block.blank])
  else if tableRowLine ls then
    if separatorLine ls then (st, [])
    else ({ st with table_buffer := st.table_buffer ++ [ls], table_mode := true }, [])
  else
    let fl :=
      if st.table_mode then
        ({ st with table_mode := false, table_buffer := [] },
          flush_table bridge st.table_buffer)
      else (st, ([] : List Block))
    if ls = "---".data then (fl.1, fl.2 ++ [Block.hrule])
    else if startsWithL ("#".data) ls then
      let level := (ls.takeWhile (fun c => c == '#')).length
      (fl.1, fl.2 ++ [Block.heading (min level 6) (pyStrip (ls.drop level))])
    else if startsWithL ("* ".data) ls || startsWithL ("- ".data) ls then
      (fl.1, fl.2 ++ [Block.para [Run.plain ('•' :: ' ' :: pyStrip (ls.drop 1))]])
    else
      (fl.1, fl.2 ++ parse_line_for_images_and_text bridge line)

/-- The whole scan loop plus the end-of-input handling of lines 421-423
(only an open table buffer is flushed). -/
def scanCore (bridge : Bridge) : ScanState → List (List Char) → ScanState × List Block
  | st, [] => (st, if st.table_mode then flush_table bridge st.table_buffer else [])
  | st, l :: ls =>
    let p := step bridge st l
    let q := scanCore bridge p.1 ls
    (q.1, p.2 ++ q.2)

/-- `convert_markdown_to_docx`, restricted to its observable block output:
split the text on newlines and run the scan loop from the initial state. -/
def convert_markdown_to_docx (bridge : Bridge) (text : List Char) : List Block :=
  (scanCore bridge initState (splitOnChar '\n' text)).2

/-! ### Helper lemmas -/

/-- Splitting a star-free run `A` followed by a star: the greedy `[^*]+`
scan takes exactly `A`. -/
theorem span_nonstar (A l : List Char) (h : ∀ c ∈ A, c ≠ '*') :
    (A ++ '*' :: l).takeWhile (fun c => !(c == '*')) = A
    ∧ (A ++ '*' :: l).dropWhile (fun c => !(c == '*')) = '*' :: l := by
  induction A with
  | nil => refine ⟨?_, ?_⟩ <;> simp [List.takeWhile_cons, List.dropWhile_cons]
  | cons a as ih =>
    have ha : (a == '*') = false :=
      beq_eq_false_iff_ne.mpr (h a (List.mem_cons_self a as))
    have ih2 := ih (fun c hc => h c (List.mem_cons_of_mem a hc))
    constructor
    · simp [List.takeWhile_cons, ha, ih2.1]
    · simp [List.dropWhile_cons, ha, ih2.2]

theorem altEmph3_tripleStar (A : List Char) (h1 : A ≠ []) (h2 : ∀ c ∈ A, c ≠ '*') :
    altEmph3 ('*' :: '*' :: '*' :: (A ++ ['*', '*', '*'])) =
      some ('*' :: '*' :: '*' :: (A ++ ['*', '*', '*']), []) := by
  have hs := span_nonstar A ['*', '*'] h2
  show emphTail 3 (A ++ ['*', '*', '*']) = _
  simp only [emphTail]
  rw [hs.1, hs.2]
  simp [h1, startsWithL, List.replicate]

theorem matchInlineAt_tripleStar (A : List Char) (h1 : A ≠ []) (h2 : ∀ c ∈ A, c ≠ '*') :
    matchInlineAt ('*' :: '*' :: '*' :: (A ++ ['*', '*', '*'])) =
      some ('*' :: '*' :: '*' :: (A ++ ['*', '*', '*']), []) := by
  simp [matchInlineAt, altEmph3_tripleStar A h1 h2]

theorem reSplit_single_match (c : Char) (cs : List Char)
    (h : matchInlineAt (c :: cs) = some (c :: cs, [])) :
    reSplit (c :: cs) = [[], c :: cs, []] := by
  simp [reSplit, reSplitGo, h]

theorem m3Full_tripleStar (A : List Char) (h1 : A ≠ []) (h2 : ∀ c ∈ A, c ≠ '*') :
    m3Full ('*' :: '*' :: '*' :: (A ++ ['*', '*', '*'])) = some A := by
  have hs := span_nonstar A ['*', '*'] h2
  show emphFullTail 3 (A ++ ['*', '*', '*']) = _
  simp only [emphFullTail]
  rw [hs.1, hs.2]
  simp [h1, List.replicate]

/-! ### Claim theorems -/

/-- C7: for every text of the form `***A***` where `A` is non-empty and
contains no asterisk, the inline tokenizer produces exactly one emphasis
run, with content `A` and style bold-italic (the triple-asterisk
alternative matches first and consumes the whole text); the only other
runs are the two empty plain runs that `re.split` leaves around a match
covering the whole string.  The input is never split into two italic
matches or any other combination. -/
theorem c7_triple_star_boldItalic (bridge : Bridge) (A : List Char)
    (h1 : A ≠ []) (h2 : ∀ c ∈ A, c ≠ '*') :
    add_runs_with_inline_markdown bridge ('*' :: '*' :: '*' :: (A ++ ['*', '*', '*'])) =
      [Run.plain [], Run.emph A EmphStyle.boldItalic, Run.plain []] := by
  have hm := matchInlineAt_tripleStar A h1 h2
  have hsplit := reSplit_single_match '*' ('*' :: '*' :: (A ++ ['*', '*', '*'])) hm
  have hseg : processSeg bridge ('*' :: '*' :: '*' :: (A ++ ['*', '*', '*'])) =
      Run.emph A EmphStyle.boldItalic := by
    have hf : isFormulaSeg ('*' :: '*' :: '*' :: (A ++ ['*', '*', '*'])) = false := rfl
    simp [processSeg, hm, hf, m3Full_tripleStar A h1 h2]
  have hnil : processSeg bridge [] = Run.plain [] := rfl
  simp only [add_runs_with_inline_markdown, hsplit, List.map_cons, List.map_nil, hseg, hnil]

theorem c7_witness :
    add_runs_with_inline_markdown bridge0 ('*' :: '*' :: '*' :: (['x'] ++ ['*', '*', '*'])) =
      [Run.plain [], Run.emph ['x'] EmphStyle.boldItalic, Run.plain []] :=
  c7_triple_star_boldItalic bridge0 ['x'] (by decide) (by decide)

/-- C4 (counterexample to the claim as stated): on the 4-character input
`****` — a well-formed `**`+`**` pair with empty interior — the tokenizer
produces a single plain-text run `****` and no emphasis span at all: every
emphasis alternative of the inline pattern requires a non-empty `[^*]+`
interior, so `****` matches nothing. -/
theorem c4_counterexample :
    add_runs_with_inline_markdown bridge0 ("****".data) = [Run.plain ("****".data)]
    ∧ (add_runs_with_inline_markdown bridge0 ("****".data)).all
        (fun r => !(r.isEmph)) = true := by
  refine ⟨by decide, by decide⟩

/-- C4 (amended): a well-formed emphasis delimiter pair with empty
interior does not match any emphasis alternative (each requires a
non-empty interior), so `****` passes through unchanged as one plain-text
run — it is neither dropped nor crashes, but no empty-content emphasis
span is produced. -/
theorem c4_empty_pair_plain_text (bridge : Bridge) :
    add_runs_with_inline_markdown bridge ("****".data) = [Run.plain ("****".data)] := rfl

theorem c4_witness :
    add_runs_with_inline_markdown bridge0 ("****".data) = [Run.plain ("****".data)] :=
  c4_empty_pair_plain_text bridge0

/-- C6 (counterexample to the claim as stated): the line
`See ![fig](fig.png) above.` does not produce exactly one paragraph block —
it produces two (plus a separate centered image paragraph between them). -/
theorem c6_counterexample :
    ((convert_markdown_to_docx bridge0 ("See ![fig](fig.png) above.".data)).filter
        (fun b => b.isPara)).length ≠ 1 := by
  decide

/-- C6 (amended): a Normal-state text line containing image references
produces one block per segment, in order: a separate paragraph for each
non-empty text segment (tokenized) and a separate centered image paragraph
for each image reference — not one merged paragraph with image spans.
`See ![fig](fig.png) above.` yields exactly three blocks. -/
theorem c6_separate_blocks_per_segment :
    convert_markdown_to_docx bridge0 ("See ![fig](fig.png) above.".data) =
      [Block.para [Run.plain ("See ".data)],
       Block.imagePara ("fig".data) ("fig.png".data),
       Block.para [Run.plain (" above.".data)]] := by
  decide

/-- C8 (counterexample to the claim as stated): the three-line input
`$$`, `x+y`, `$$` produces no math-block event at all (let alone exactly
one): a lone `$$` line both starts and ends with `$$`, so the multi-line
opener condition of lines 348-351 rejects it, and the single-line pattern
requires length at least 4; each of the three lines falls through to the
ordinary-text rule. -/
theorem c8_counterexample :
    ((convert_markdown_to_docx bridge0 ("$$\nx+y\n$$".data)).filter
        (fun b => b.isMathPara)).length = 0 := by
  decide

/-- C8 (amended): stripping display-math delimiters does round-trip the
payload modulo surrounding whitespace (`$$ x^2 $$` yields `x^2`), but a
multi-line math block only arises when the opening line does not itself
end with a closing delimiter: the input `$$x\n+y$$` produces exactly one
math block whose converted source is `x\n+y` (the buffered lines joined
with a newline, delimiters and surrounding whitespace removed), whereas
`$$\nx+y\n$$` produces three plain paragraphs and no math block. -/
theorem c8_strip_roundtrip_and_multiline :
    strip_delimiters ("$$ x^2 $$".data) = "x^2".data
    ∧ convert_markdown_to_docx bridgeOK ("$$x\n+y$$".data) =
        [Block.mathPara (Run.mathNode ("x\n+y".data))] := by
  refine ⟨by decide, by decide⟩

/-- C1 (counterexample to the claim as stated): after scanning the two
lines `$$ x` and `` ``` ``, the scanner is simultaneously in the code-fence
state and in the math-block state, and the fence line was *not* appended to
the math buffer — the fence check of line 313 runs before the math-block
check of line 328, so the states are not mutually exclusive. -/
theorem c1_counterexample :
    ((scanCore bridge0 initState [("$$ x".data), ("```".data)]).1.in_code_block = true
      ∧ (scanCore bridge0 initState [("$$ x".data), ("```".data)]).1.in_math_block = true)
    ∧ (scanCore bridge0 initState [("$$ x".data), ("```".data)]).1.math_block_buffer =
        [("$$ x".data)] := by
  refine ⟨⟨by decide, by decide⟩, by decide⟩

/-- C1 (amended): the code-fence trigger is checked before every state
check: a line whose stripped form starts with a fence marker toggles the
code-fence flag and emits a fence boundary no matter which other state is
active, leaving the math-block flag, the math buffer, the table buffer and
the table mode untouched.  Consequently the parser states are not mutually
exclusive: the code-fence state can become active while the math-block
state or an open table buffer is still active, and a fence-marker line seen
while in the math block is never appended to the math buffer. -/
theorem c1_fence_toggles_regardless_of_state (bridge : Bridge) (st : ScanState)
    (line : List Char) (hf : fenceLine (pyStrip line) = true) :
    step bridge st line =
      ({ st with in_code_block := !st.in_code_block },
        [Block.codeBoundary (!st.in_code_block)]) := by
  simp [step, hf]

theorem c1_witness :
    step bridge0
        { in_code_block := false, in_math_block := true,
          math_block_buffer := [("x".data)], table_buffer := [("|a|".data)],
          table_mode := true } ("```".data) =
      ({ in_code_block := true, in_math_block := true,
          math_block_buffer := [("x".data)], table_buffer := [("|a|".data)],
          table_mode := true },
        [Block.codeBoundary true]) :=
  c1_fence_toggles_regardless_of_state bridge0 _ _ (by decide)

/-- C2 (counterexample to the claim as stated): a math block opened by the
`\[`-shaped line `\[ a` is closed and flushed by the very next line `b $$`,
which ends with the *other* shape's closer `$$` — the line is not appended
as an ordinary buffered line, the block is flushed and the math-block state
cleared. -/
theorem c2_counterexample :
    scanCore bridge0 initState [("\\[ a".data), ("b $$".data)] =
      (initState, [Block.mathPara (Run.plain ("\\[ a\nb $$".data))]) := by
  decide

/-- C2 (amended): while the scanner is in the math-block state (and the
line is not a fence marker, which is checked first), *any* line whose
stripped form ends with either display-math closer — `$$` or `\]`,
regardless of the shape that opened the block (the opener's shape is not
recorded anywhere in the state) — closes and flushes the block; every
other line is appended raw to the buffer. -/
theorem c2_either_closer_flushes (bridge : Bridge) (st : ScanState) (line : List Char)
    (hm : st.in_math_block = true) (hc : st.in_code_block = false)
    (hf : fenceLine (pyStrip line) = false) :
    (mathCloseLine (pyStrip line) = true →
      step bridge st line =
        ({ st with in_math_block := false, math_block_buffer := [] },
          [Block.mathPara
            (match latex_to_omml bridge
                (strip_delimiters (joinNL (st.math_block_buffer ++ [line]))) with
              | some x => Run.mathNode x
              | none => Run.plain (joinNL (st.math_block_buffer ++ [line])))]))
    ∧ (mathCloseLine (pyStrip line) = false →
      step bridge st line =
        ({ st with math_block_buffer := st.math_block_buffer ++ [line] }, [])) := by
  constructor
  · intro h
    simp [step, hf, hc, hm, h]
  · intro h
    simp [step, hf, hc, hm, h]

theorem c2_witness :
    step bridge0
        { in_code_block := false, in_math_block := true,
          math_block_buffer := [("a".data)], table_buffer := [], table_mode := false }
        ("x$$".data) =
      ({ in_code_block := false, in_math_block := false, math_block_buffer := [],
          table_buffer := [], table_mode := false },
        [Block.mathPara (Run.plain ("a\nx$$".data))]) :=
  (c2_either_closer_flushes bridge0 _ _ rfl rfl (by decide)).1 (by decide)

/-- C3 (counterexample to the claim as stated): the one-line document
`$$ x` ends while the scanner is in the math-block state with the
non-empty buffer `["$$ x"]`, yet the converter's output is empty — the
buffered lines are discarded, no fallback paragraph is emitted. -/
theorem c3_counterexample :
    convert_markdown_to_docx bridge0 ("$$ x".data) = []
    ∧ (scanCore bridge0 initState [("$$ x".data)]).1.math_block_buffer ≠ [] := by
  refine ⟨by decide, by decide⟩

/-- C3 (amended): if end-of-input is reached while the scanner is in the
math-block state with a non-empty buffer, the buffered lines *are*
discarded: the end-of-input handling of lines 421-423 flushes only an open
table buffer and emits nothing for the math buffer. -/
theorem c3_eof_discards_math_buffer (bridge : Bridge) (st : ScanState)
    (hm : st.in_math_block = true) (hb : st.math_block_buffer ≠ [])
    (ht : st.table_mode = false) :
    scanCore bridge st [] = (st, []) := by
  simp [scanCore, ht]

theorem c3_witness :
    scanCore bridge0
        { in_code_block := false, in_math_block := true,
          math_block_buffer := [("$$ x".data)], table_buffer := [], table_mode := false }
        [] =
      ({ in_code_block := false, in_math_block := true,
          math_block_buffer := [("$$ x".data)], table_buffer := [], table_mode := false },
        []) :=
  c3_eof_discards_math_buffer bridge0 _ rfl (by decide) rfl

/-- C5 (counterexample to the claim as stated): for the list line
`* **b**` the emitted list paragraph carries the single plain run
`• **b**` — the remainder is *not* passed through the inline tokenizer,
which on `**b**` would have produced a bold emphasis run. -/
theorem c5_counterexample :
    convert_markdown_to_docx bridge0 ("* **b**".data) =
      [Block.para [Run.plain ('•' :: ' ' :: "**b**".data)]]
    ∧ add_runs_with_inline_markdown bridge0 ("**b**".data) =
        [Run.plain [], Run.emph ("b".data) EmphStyle.bold, Run.plain []]
    ∧ [Run.plain ('•' :: ' ' :: "**b**".data)] ≠
        add_runs_with_inline_markdown bridge0 ("**b**".data) := by
  refine ⟨by decide, by decide, by decide⟩

/-- C5 (amended): a Normal-state line whose stripped form starts with an
unordered-list marker followed by a space is emitted as a paragraph with a
single *plain* run: a bullet prefix `• ` followed by the rest of the line
verbatim (stripped) — the remainder is not passed through the inline span
tokenizer. -/
theorem c5_list_item_not_tokenized (bridge : Bridge) (st : ScanState)
    (line A : List Char) (hc : st.in_code_block = false)
    (hm : st.in_math_block = false) (ht : st.table_mode = false)
    (hs : pyStrip line = '*' :: ' ' :: A) :
    step bridge st line = (st, [Block.para [Run.plain ('•' :: ' ' :: pyStrip A)]]) := by
  simp only [step, hs, hc, hm, ht]
  rfl

theorem c5_witness :
    step bridge0 initState ("* **b**".data) =
      (initState, [Block.para [Run.plain ('•' :: ' ' :: pyStrip ("**b**".data))]]) :=
  c5_list_item_not_tokenized bridge0 initState ("* **b**".data) ("**b**".data)
    rfl rfl rfl (by decide)

/-- C9: the math conversion and its caller degrade gracefully: (1) an
empty or whitespace-only LaTeX payload makes `latex_to_omml` return the
failure value `none` for every bridge (the guard of line 64, before the
conversion chain is even consulted); (2) whenever the conversion of a
formula-classified segment fails, the caller emits the original delimited
segment text verbatim as a plain run (line 126); (3) segments are
processed independently — the output is the per-segment map over the
split, so a failing formula never affects any other segment or aborts the
rest of the processing.  (In the source every exception of the chain is
caught at lines 76-81, so conversion faults are exactly the `none` results
modelled here; no exception escapes.) -/
theorem c9_formula_failure_fallback (bridge : Bridge) (seg : List Char) :
    (pyStrip seg = [] → latex_to_omml bridge seg = none)
    ∧ ((matchInlineAt seg).isSome = true → isFormulaSeg seg = true →
        latex_to_omml bridge (strip_delimiters seg) = none →
        processSeg bridge seg = Run.plain seg)
    ∧ (∀ text : List Char,
        add_runs_with_inline_markdown bridge text =
          (reSplit text).map (processSeg bridge)) := by
  refine ⟨?_, ?_, fun _ => rfl⟩
  · intro h
    simp [latex_to_omml, h]
  · intro hm hf hfail
    obtain ⟨v, hv⟩ := Option.isSome_iff_exists.mp hm
    simp [processSeg, hv, hf, hfail]

theorem c9_witness :
    processSeg bridge0 ("$x$".data) = Run.plain ("$x$".data) :=
  (c9_formula_failure_fallback bridge0 ("$x$".data)).2.1 (by decide) (by decide) (by decide)

/-! Lemmas about the table assembly used by C10. -/

theorem takeCells_of_lt (n : Nat) (r : List (List Char)) (h : r.length < n) :
    takeCells n r = none := by
  induction n generalizing r with
  | zero => omega
  | succ n ih =>
    cases r with
    | nil => rfl
    | cons c cs =>
      have : cs.length < n := by simpa using h
      simp [takeCells, ih cs this]

theorem takeCells_of_le (n : Nat) (r : List (List Char)) (h : n ≤ r.length) :
    takeCells n r = some (r.take n) := by
  induction n generalizing r with
  | zero => simp [takeCells]
  | succ n ih =>
    cases r with
    | nil => simp at h
    | cons c cs =>
      have : n ≤ cs.length := by simpa using h
      simp [takeCells, ih cs this]

theorem assembleRows_of_short (bridge : Bridge) (n : Nat)
    (rs : List (List (List Char))) (r : List (List Char))
    (hr : r ∈ rs) (h : r.length < n) :
    assembleRows bridge n rs = none := by
  induction rs with
  | nil => cases hr
  | cons x xs ih =>
    rcases List.mem_cons.mp hr with h1 | h1
    · subst h1
      simp [assembleRows, assembleRow, takeCells_of_lt n r h]
    · cases hx : assembleRow bridge n x <;> simp [assembleRows, hx, ih h1]

theorem assembleRows_of_wide (bridge : Bridge) (n : Nat)
    (rs : List (List (List Char))) (h : ∀ r ∈ rs, n ≤ r.length) :
    ∃ g, assembleRows bridge n rs = some g ∧ g.length = rs.length
      ∧ ∀ row ∈ g, row.length = n := by
  induction rs with
  | nil => exact ⟨[], rfl, rfl, by simp⟩
  | cons x xs ih =>
    obtain ⟨g, hg, hlen, hcols⟩ := ih (fun r hr => h r (List.mem_cons_of_mem x hr))
    have hx : n ≤ x.length := h x (List.mem_cons_self x xs)
    refine ⟨(x.take n).map (add_runs_with_inline_markdown bridge) :: g, ?_, ?_, ?_⟩
    · simp [assembleRows, assembleRow, takeCells_of_le n x hx, hg]
    · simp [hlen]
    · intro row hrow
      rcases List.mem_cons.mp hrow with h1 | h1
      · subst h1
        simp [Nat.min_eq_left hx]
      · exact hcols row h1

/-- C10: if the buffered table rows are ragged so that some later row
splits into fewer cells than the first row, the table flush reaches the
error branch (the cell lookup `rows_data[i][j]` runs off the short row; in
this total embedding `takeCells` returns `none` and the flush emits the
error marker `Block.table none`, modelling the uncaught `IndexError`);
and when every row has at least as many cells as the first row, assembly
completes with a grid that has one row per buffered row, each of width
equal to the first row's cell count. -/
theorem c10_ragged_table_rows (bridge : Bridge) (buffer : List (List Char))
    (r0 : List (List Char)) (rest : List (List (List Char)))
    (hrows : buffer.map parseRow = r0 :: rest) (hn : r0.length ≠ 0) :
    ((∃ r, r ∈ rest ∧ r.length < r0.length) →
      flush_table bridge buffer = [Block.table none])
    ∧ ((∀ r, r ∈ r0 :: rest → r0.length ≤ r.length) →
      ∃ g, flush_table bridge buffer = [Block.table (some g)]
        ∧ g.length = rest.length + 1 ∧ ∀ row ∈ g, row.length = r0.length) := by
  constructor
  · rintro ⟨r, hr, hlt⟩
    have hnone :=
      assembleRows_of_short bridge r0.length (r0 :: rest) r (List.mem_cons_of_mem r0 hr) hlt
    simp only [flush_table, hrows]
    simp [hn, hnone]
  · intro hall
    obtain ⟨g, hg, hlen, hcols⟩ := assembleRows_of_wide bridge r0.length (r0 :: rest) hall
    refine ⟨g, ?_, by simpa using hlen, hcols⟩
    simp only [flush_table, hrows]
    simp [hn, hg]

theorem c10_witness :
    flush_table bridge0 [("|a|b|".data), ("|c|".data)] = [Block.table none] :=
  (c10_ragged_table_rows bridge0 [("|a|b|".data), ("|c|".data)]
      [("a".data), ("b".data)] [[("c".data)]] (by decide) (by decide)).1
    ⟨[("c".data)], by decide, by decide⟩


end MD
